import Mathlib

/-!
Verification of the rake-festival donation-ingestion pipeline.

The Python sources under `donations/` are shallowly embedded below:
pure helpers (`donations/utils.py`) become Lean functions on `List Char`,
the IMAP ingestion loop (`donations/management/commands/pull_paypal_emails.py`)
becomes explicit state passing over a `LoopState`, and the PayPal order
verification (`donations/views.py`) becomes a function over an abstract
gateway, returning `Except` to model uncaught Python exceptions.
Python's standard library (`re` search on the module's fixed patterns,
`decimal.Decimal`, `html.unescape`, `str.strip`) is modelled explicitly.
-/

set_option maxRecDepth 40000
set_option maxHeartbeats 1000000

namespace RakeFestival

/-! ### Character-level models of Python `str` / `re` behaviour -/

/-- Python's `\s` (unicode mode): ASCII whitespace plus the unicode
whitespace code points (NBSP, narrow no-break space, figure space, thin
space, line/paragraph separators, ...). -/
def pyIsSpace (c : Char) : Bool :=
  let n := c.toNat
  n == 0x20 || n == 0x9 || n == 0xA || n == 0xD || n == 0xB || n == 0xC ||
  n == 0x1C || n == 0x1D || n == 0x1E || n == 0x1F || n == 0x85 ||
  n == 0xA0 || n == 0x1680 || (0x2000 ≤ n && n ≤ 0x200A) ||
  n == 0x2028 || n == 0x2029 || n == 0x202F || n == 0x205F || n == 0x3000

/-- Case folding used by `re.I` on the character repertoire this
development manipulates (ASCII plus the Latin-1 letters, which covers the
German umlauts appearing in the source's patterns). -/
def pyToLower (c : Char) : Char :=
  let n := c.toNat
  if 65 ≤ n && n ≤ 90 then Char.ofNat (n + 32)
  else if 0xC0 ≤ n && n ≤ 0xDE && n ≠ 0xD7 then Char.ofNat (n + 32)
  else c

/-- Python's `\w` ("word character", unicode mode) restricted to ASCII
alphanumerics, underscore, and the Latin-1 letters. -/
def pyIsWordChar (c : Char) : Bool :=
  c.isAlphanum || c == '_' ||
  (let n := c.toNat
   (0xC0 ≤ n && n ≤ 0xFF && n ≠ 0xD7 && n ≠ 0xF7) || n == 0xAA || n == 0xB5 || n == 0xBA)

/-- Case-insensitive character comparison (for the `re.I` patterns). -/
def chEqCI (a b : Char) : Bool := pyToLower a == pyToLower b

def stripLeftWs : List Char → List Char
  | [] => []
  | c :: rest => if pyIsSpace c then stripLeftWs rest else c :: rest

/-- Python `str.strip()` with no argument: remove unicode whitespace from
both ends. -/
def pyStrip (l : List Char) : List Char :=
  ((stripLeftWs l).reverse |> stripLeftWs).reverse

/-- Leftmost occurrence test: does `pat` occur (case-insensitively) as a
contiguous substring of `l`?  Models `re.search` on a plain literal
pattern compiled with `re.I` (used for the `paypal` allowlist check). -/
def listStartsWith : List Char → List Char → Bool
  | _, [] => true
  | [], _ :: _ => false
  | c :: cs, p :: ps => c == p && listStartsWith cs ps

def hasSubSeq : List Char → List Char → Bool
  | [], pat => pat.isEmpty
  | l@(_ :: rest), pat => listStartsWith l pat || hasSubSeq rest pat

def containsCI (l pat : List Char) : Bool :=
  hasSubSeq (l.map pyToLower) (pat.map pyToLower)

/-! ### Amount normalizer (`donations/utils.py`, `_normalize_amount_to_decimal`) -/

/-- The per-character `str.replace` chain of `_normalize_amount_to_decimal`
(NBSP, narrow NBSP, figure space, thin space, CR, LF each become a plain
space). -/
def spaceSubChar (c : Char) : Char :=
  let n := c.toNat
  if n == 0xA0 || n == 0x202F || n == 0x2007 || n == 0x2009 || n == 0xD || n == 0xA
  then ' ' else c

/-- `re.sub(r"(EUR|eur|€|\s)", "", s)`: a left-to-right scan removing the
literal `EUR`, the literal `eur`, the euro sign, and every whitespace
character (the pattern is compiled without `re.I`, so only those two
spellings of the currency code are removed). -/
def removeCurrencyWs : List Char → List Char
  | [] => []
  | 'E' :: 'U' :: 'R' :: rest => removeCurrencyWs rest
  | 'e' :: 'u' :: 'r' :: rest => removeCurrencyWs rest
  | c :: rest =>
    if c == '€' || pyIsSpace c then removeCurrencyWs rest else c :: removeCurrencyWs rest

/-- Python `str.rfind` of a single character: index of the last
occurrence, `-1` when absent. -/
def pyRfind (l : List Char) (c : Char) : Int :=
  match (l.reverse).findIdx? (· == c) with
  | none => -1
  | some i => (l.length : Int) - 1 - i

/-- A finite value of Python's `decimal.Decimal`:
`(-1)^neg * coeff * 10^exp`. -/
structure PyDec where
  neg : Bool
  coeff : Nat
  exp : Int
  deriving DecidableEq, Repr

def allDigits (l : List Char) : Bool := l.all (·.isDigit)

def digitsVal (l : List Char) : Nat := l.foldl (fun a c => 10 * a + (c.toNat - 48)) 0

/-- Split at the first `.` (absent further processing decides validity). -/
def splitAtDot : List Char → List Char × Option (List Char)
  | [] => ([], none)
  | '.' :: rest => ([], some rest)
  | c :: rest => let p := splitAtDot rest; (c :: p.1, p.2)

/-- Split at the first `e`/`E` (exponent marker). -/
def splitAtExp : List Char → List Char × Option (List Char)
  | [] => ([], none)
  | c :: rest =>
    if c == 'e' || c == 'E' then ([], some rest)
    else let p := splitAtExp rest; (c :: p.1, p.2)

def parseSign : List Char → Bool × List Char
  | '-' :: rest => (true, rest)
  | '+' :: rest => (false, rest)
  | l => (false, l)

/-- Model of the `Decimal(str)` constructor on finite inputs: strip
whitespace, drop underscores, then `sign? (digits (. digits*)? | . digits+)
([eE] sign? digits+)?`.  The special values (`NaN`, `Infinity`, ...) fall
outside this grammar and are folded into `none`: the source immediately
calls `.quantize`, which raises `InvalidOperation` on every non-finite
value, and that exception is caught and mapped to `None`. -/
def pyDecimalOfList (l0 : List Char) : Option PyDec :=
  let l1 := (pyStrip l0).filter (fun c => c ≠ '_')
  let sp := parseSign l1
  let se := splitAtExp sp.2
  let eVal : Option Int :=
    match se.2 with
    | none => some 0
    | some ep =>
      let es := parseSign ep
      if es.2 ≠ [] && allDigits es.2 then
        some (if es.1 then -(digitsVal es.2 : Int) else (digitsVal es.2 : Int))
      else none
  match eVal with
  | none => none
  | some e =>
    let sd := splitAtDot se.1
    match sd.2 with
    | none =>
      if sd.1 ≠ [] && allDigits sd.1 then some ⟨sp.1, digitsVal sd.1, e⟩ else none
    | some fp =>
      if allDigits sd.1 && allDigits fp && (sd.1 ≠ [] || fp ≠ []) then
        some ⟨sp.1, digitsVal (sd.1 ++ fp), e - fp.length⟩
      else none

def numDigits (n : Nat) : Nat := (Nat.toDigits 10 n).length

/-- `n / m` rounded with `ROUND_HALF_EVEN` (the default decimal context
rounding), `m > 0`. -/
def roundHalfEven (n m : Nat) : Nat :=
  let q := n / m
  let r := n % m
  if 2 * r < m then q
  else if 2 * r > m then q + 1
  else if q % 2 == 0 then q else q + 1

/-- `Decimal.quantize(Decimal("0.01"))` under the default context:
rescale to exponent `-2` with half-even rounding; `InvalidOperation`
(mapped to `none`) when the resulting coefficient exceeds the context
precision of 28 digits. -/
def quantize2 (d : PyDec) : Option PyDec :=
  let coeff :=
    if -2 ≤ d.exp then d.coeff * 10 ^ (d.exp + 2).toNat
    else roundHalfEven d.coeff (10 ^ (-d.exp - 2).toNat)
  if 28 < numDigits coeff then none else some ⟨d.neg, coeff, -2⟩

/-- First phase of `_normalize_amount_to_decimal`: the whitespace
replacements, `strip()`, and the currency/whitespace-removing `re.sub`. -/
def cleanedAmount (l : List Char) : List Char :=
  removeCurrencyWs (pyStrip (l.map spaceSubChar))

/-- Separator disambiguation of `_normalize_amount_to_decimal`: with both
separators present the one with the larger `rfind` survives as the decimal
point, the other is deleted; a lone comma becomes the decimal point. -/
def sepAdjusted (s : List Char) : List Char :=
  if s.contains ',' && s.contains '.' then
    if pyRfind s ',' > pyRfind s '.' then
      (s.filter (fun c => c ≠ '.')).map (fun c => if c == ',' then '.' else c)
    else s.filter (fun c => c ≠ ',')
  else if s.contains ',' then s.map (fun c => if c == ',' then '.' else c)
  else s

/-- `_normalize_amount_to_decimal` (`donations/utils.py` lines 52-72) at
the list level.  Total by construction: every failure path of the source
returns `None`. -/
def normalizeAmountList (l : List Char) : Option PyDec :=
  if l = [] then none
  else (pyDecimalOfList (sepAdjusted (cleanedAmount l))).bind quantize2

/-- `_normalize_amount_to_decimal` on a Python string. -/
def normalize_amount_to_decimal (amount_str : String) : Option PyDec :=
  normalizeAmountList amount_str.toList

/-! ### Text stripping (`donations/utils.py`, `_strip_tags_to_text`) -/

/-- Model of `html.unescape` covering the named entities that occur in the
provider's emails (`&amp; &lt; &gt; &quot; &apos; &nbsp; &euro;`); other
ampersand sequences pass through unchanged, as they do in Python when not
recognized. -/
def htmlUnescape : List Char → List Char
  | '&' :: 'a' :: 'm' :: 'p' :: ';' :: rest => '&' :: htmlUnescape rest
  | '&' :: 'l' :: 't' :: ';' :: rest => '<' :: htmlUnescape rest
  | '&' :: 'g' :: 't' :: ';' :: rest => '>' :: htmlUnescape rest
  | '&' :: 'q' :: 'u' :: 'o' :: 't' :: ';' :: rest => '"' :: htmlUnescape rest
  | '&' :: 'a' :: 'p' :: 'o' :: 's' :: ';' :: rest => '\'' :: htmlUnescape rest
  | '&' :: 'n' :: 'b' :: 's' :: 'p' :: ';' :: rest => '\xA0' :: htmlUnescape rest
  | '&' :: 'e' :: 'u' :: 'r' :: 'o' :: ';' :: rest => '€' :: htmlUnescape rest
  | c :: rest => c :: htmlUnescape rest
  | [] => []

/-- One left-to-right `re.sub` pass.  `m` inspects the current suffix and,
on a match, yields the replacement together with the suffix after the
matched (nonempty) text; otherwise the current character is kept.  `fuel`
starts at the list length, which suffices because every matcher below
consumes at least one character per match. -/
def reSubScan (m : List Char → Option (List Char × List Char)) : Nat → List Char → List Char
  | _, [] => []
  | 0, l => l
  | fuel + 1, c :: rest =>
    match m (c :: rest) with
    | some (rep, r) => rep ++ reSubScan m fuel r
    | none => c :: reSubScan m fuel rest

def reSub (m : List Char → Option (List Char × List Char)) (l : List Char) : List Char :=
  reSubScan m l.length l

/-- `re.sub(r"(?i)<\s*br\s*/?>", "\n", s)`. -/
def mBrTag (l : List Char) : Option (List Char × List Char) :=
  match l with
  | '<' :: rest =>
    match stripLeftWs rest with
    | b :: r2 =>
      if chEqCI b 'b' then
        match r2 with
        | rc :: r3 =>
          if chEqCI rc 'r' then
            match stripLeftWs r3 with
            | '/' :: '>' :: r5 => some (['\n'], r5)
            | '>' :: r5 => some (['\n'], r5)
            | _ => none
          else none
        | [] => none
      else none
    | [] => none
  | _ => none

/-- The tag-name alternation `(p|div|td|tr|li|h\d)` (alternatives are
mutually exclusive at a fixed position). -/
def matchTagName (l : List Char) : Option (List Char) :=
  match l with
  | c :: rest =>
    if chEqCI c 'p' then some rest
    else if chEqCI c 'd' then
      match rest with
      | i :: v :: r => if chEqCI i 'i' && chEqCI v 'v' then some r else none
      | _ => none
    else if chEqCI c 't' then
      match rest with
      | x :: r => if chEqCI x 'd' || chEqCI x 'r' then some r else none
      | _ => none
    else if chEqCI c 'l' then
      match rest with
      | x :: r => if chEqCI x 'i' then some r else none
      | _ => none
    else if chEqCI c 'h' then
      match rest with
      | x :: r => if x.isDigit then some r else none
      | _ => none
    else none
  | [] => none

/-- `re.sub(r"(?i)</\s*(p|div|td|tr|li|h\d)\s*>", "\n", s)`. -/
def mCloseTag (l : List Char) : Option (List Char × List Char) :=
  match l with
  | '<' :: '/' :: rest =>
    match matchTagName (stripLeftWs rest) with
    | some r2 =>
      match stripLeftWs r2 with
      | '>' :: r4 => some (['\n'], r4)
      | _ => none
    | none => none
  | _ => none

/-- `re.sub(r"<[^>]+>", " ", s)`. -/
def mAnyTag (l : List Char) : Option (List Char × List Char) :=
  match l with
  | '<' :: rest =>
    let body := rest.takeWhile (fun c => c ≠ '>')
    match rest.drop body.length with
    | '>' :: r => if body.isEmpty then none else some ([' '], r)
    | _ => none
  | _ => none

/-- The `.replace` chain: NBSP, narrow NBSP, figure space, thin space
each become a plain space. -/
def nbspToSpace (c : Char) : Char :=
  let n := c.toNat
  if n == 0xA0 || n == 0x202F || n == 0x2007 || n == 0x2009 then ' ' else c

/-- `str.replace("\r\n", "\n")`. -/
def replaceCrLf : List Char → List Char
  | '\r' :: '\n' :: rest => '\n' :: replaceCrLf rest
  | c :: rest => c :: replaceCrLf rest
  | [] => []

/-- `re.sub(r"[ \t]+", " ", s)`: a space/tab run collapses to one space. -/
def mSpaceTabRun (l : List Char) : Option (List Char × List Char) :=
  match l with
  | c :: _ =>
    if c == ' ' || c == '\t' then
      some ([' '], l.dropWhile (fun c => c == ' ' || c == '\t'))
    else none
  | [] => none

/-- `re.sub(r"\n{2,}", "\n", s)`: two or more newlines collapse to one. -/
def mNlRun (l : List Char) : Option (List Char × List Char) :=
  match l with
  | '\n' :: '\n' :: _ => some (['\n'], l.dropWhile (· == '\n'))
  | _ => none

/-- `_strip_tags_to_text` (`donations/utils.py` lines 38-50): unescape,
break tags to newlines, drop remaining tags, normalize whitespace,
strip. -/
def strip_tags_to_text (raw : List Char) : List Char :=
  let s := htmlUnescape raw
  let s := reSub mBrTag s
  let s := reSub mCloseTag s
  let s := reSub mAnyTag s
  let s := replaceCrLf (s.map nbspToSpace)
  let s := reSub mSpaceTabRun s
  let s := reSub mNlRun s
  pyStrip s

/-! ### The `re.search` patterns of `donations/utils.py`

Each compiled pattern of the source is embedded as a matcher that decides
a match attempt at one position (taking the previous character for `\b`),
plus a leftmost-first scan. -/

def matchLitCI : List Char → List Char → Option (List Char)
  | [], l => some l
  | _ :: _, [] => none
  | p :: ps, c :: cs => if chEqCI c p then matchLitCI ps cs else none

/-- Like `matchLitCI` but returning the matched source characters (used
where the capture includes them). -/
def takeLitCI : List Char → List Char → Option (List Char)
  | [], _ => some []
  | _ :: _, [] => none
  | p :: ps, c :: cs => if chEqCI c p then (takeLitCI ps cs).map (c :: ·) else none

/-- `\s` (exactly one whitespace character). -/
def wsOne : List Char → Option (List Char)
  | c :: rest => if pyIsSpace c then some rest else none
  | [] => none

/-- `\s+` followed by a non-whitespace token: consume the maximal run. -/
def wsPlus : List Char → Option (List Char)
  | c :: rest => if pyIsSpace c then some (stripLeftWs rest) else none
  | [] => none

/-- `\b` before a word character, given the previous character. -/
def startBoundary : Option Char → Bool
  | none => true
  | some c => !pyIsWordChar c

/-- `\b` after a word character, given the remaining text. -/
def endBoundary : List Char → Bool
  | [] => true
  | c :: _ => !pyIsWordChar c

/-- Leftmost `re.search`: try the position matcher at every suffix,
tracking the previous character for boundary tests. -/
def searchCap (m : Option Char → List Char → Option (List Char)) :
    Option Char → List Char → Option (List Char)
  | prev, [] => m prev []
  | prev, c :: rest =>
    match m prev (c :: rest) with
    | some cap => some cap
    | none => searchCap m (some c) rest

def searchBool (m : Option Char → List Char → Bool) : Option Char → List Char → Bool
  | prev, [] => m prev []
  | prev, c :: rest => m prev (c :: rest) || searchBool m (some c) rest

/-- A `\b`-delimited phrase: first literal token, then tokens each
preceded by `\s+` (`true`) or a single `\s` (`false`). -/
def matchToksAfter : List (Bool × List Char) → List Char → Option (List Char)
  | [], l => some l
  | (plus, t) :: ts, l =>
    match (if plus then wsPlus l else wsOne l) with
    | none => none
    | some r =>
      match matchLitCI t r with
      | none => none
      | some r2 => matchToksAfter ts r2

def negPhraseAt (first : List Char) (ts : List (Bool × List Char))
    (prev : Option Char) (l : List Char) : Bool :=
  startBoundary prev &&
  (match matchLitCI first l with
   | none => false
   | some r =>
     match matchToksAfter ts r with
     | none => false
     | some r2 => endBoundary r2)

/-- `_NEGATIVE_RE` (`donations/utils.py` lines 27-36): the seven verbose
alternatives, case-insensitive. -/
def negAt (prev : Option Char) (l : List Char) : Bool :=
  negPhraseAt "du".toList
    [(false, "hast".toList), (true, "eine".toList), (true, "zahlung".toList),
     (true, "gesendet".toList)] prev l ||
  negPhraseAt "sie".toList
    [(false, "haben".toList), (true, "eine".toList), (true, "zahlung".toList),
     (true, "gesendet".toList)] prev l ||
  negPhraseAt "you".toList
    [(true, "sent".toList), (true, "a".toList), (true, "payment".toList)] prev l ||
  negPhraseAt "abbuchung".toList [] prev l ||
  negPhraseAt "withdrawal".toList [] prev l ||
  negPhraseAt "auszahlung".toList [] prev l ||
  negPhraseAt "bankkonto".toList [] prev l

def negSearch (text : List Char) : Bool := searchBool negAt none text

/-- `[A-Z0-9\-]` under `re.I`. -/
def txClassChar (c : Char) : Bool := c.isAlpha || c.isDigit || c == '-'

/-- The capture `([A-Z0-9\-]{13,19})`: greedy up to 19, at least 13. -/
def grabTxRun (l : List Char) : Option (List Char) :=
  let run := l.takeWhile txClassChar
  if run.length < 13 then none else some (run.take 19)

/-- `\s*[:\-]?\s*` then the capture, for `_TX_RE`.  A consumed `-` is
given back when the capture then falls short (the class also contains
`-`); whitespace give-back can never help since the class has no
whitespace. -/
def txAfterLabel (l : List Char) : Option (List Char) :=
  match stripLeftWs l with
  | ':' :: r2 => grabTxRun (stripLeftWs r2)
  | '-' :: r2 =>
    (match grabTxRun (stripLeftWs r2) with
     | some cap => some cap
     | none => grabTxRun ('-' :: r2))
  | r1 => grabTxRun r1

/-- `_TX_RE` at one position: `(?:Transaktionscode|Transaction\s*ID)`
then the id capture (the two label alternatives are mutually exclusive
at a fixed position). -/
def txAt (l : List Char) : Option (List Char) :=
  match matchLitCI "transaktionscode".toList l with
  | some r => txAfterLabel r
  | none =>
    match matchLitCI "transaction".toList l with
    | some r =>
      match matchLitCI "id".toList (stripLeftWs r) with
      | some r2 => txAfterLabel r2
      | none => none
    | none => none

def txSearch (text : List Char) : Option (List Char) :=
  searchCap (fun _ l => txAt l) none text

/-- `[€\s\d\.,    ]` (the explicit unicode spaces are
already whitespace). -/
def amtClassChar (c : Char) : Bool :=
  c == '€' || pyIsSpace c || c.isDigit || c == '.' || c == ','

/-- The optional `(?:\s*EUR)?` inside the amount capture: after the greedy
class run all whitespace is consumed, so it reduces to a literal `EUR`. -/
def eurTake (l : List Char) : List Char :=
  match takeLitCI "eur".toList l with
  | some e => e
  | none => []

/-- `\s*([class]+(?:\s*EUR)?)` at `l2`: greedy whitespace skip, then the
class run; when no class character follows, the regex backtracks one
whitespace character into the capture (whitespace is in the class). -/
def amtGroupAfterWs (l2 : List Char) : Option (List Char) :=
  let w2 := l2.takeWhile pyIsSpace
  let r2 := l2.drop w2.length
  let run := r2.takeWhile amtClassChar
  if run ≠ [] then some (run ++ eurTake (r2.drop run.length))
  else
    match w2.getLast? with
    | some c => some (c :: eurTake r2)
    | none => none

/-- `\s*[:\-]?\s*(capture)` for `_AMT_LABELED_RE`, with the whitespace
give-back behaviour of the Python engine. -/
def amtAfterLabel (l : List Char) : Option (List Char) :=
  let w := l.takeWhile pyIsSpace
  let r := l.drop w.length
  match r with
  | ':' :: r1 =>
    (match amtGroupAfterWs r1 with
     | some cap => some cap
     | none =>
       match w.getLast? with
       | some c => some (c :: eurTake r)
       | none => none)
  | '-' :: r1 =>
    (match amtGroupAfterWs r1 with
     | some cap => some cap
     | none =>
       match w.getLast? with
       | some c => some (c :: eurTake r)
       | none => none)
  | _ =>
    let run := r.takeWhile amtClassChar
    if run ≠ [] then some (run ++ eurTake (r.drop run.length))
    else
      match w.getLast? with
      | some c => some (c :: eurTake r)
      | none => none

/-- `_AMT_LABELED_RE` at one position (label alternatives are mutually
exclusive at a fixed position). -/
def amtLabeledAt (l : List Char) : Option (List Char) :=
  match (match matchLitCI "erhaltener".toList l with
         | some r => (wsPlus r).bind (matchLitCI "betrag".toList)
         | none => none) with
  | some r => amtAfterLabel r
  | none =>
    match (match matchLitCI "empfangener".toList l with
           | some r => (wsPlus r).bind (matchLitCI "betrag".toList)
           | none => none) with
    | some r => amtAfterLabel r
    | none =>
      match matchLitCI "betrag".toList l with
      | some r => amtAfterLabel r
      | none =>
        match matchLitCI "amount".toList l with
        | some r => amtAfterLabel r
        | none => none

/-- `[\d\.,    ]` of `_AMT_FALLBACK_RE` (digits, dot, comma, and the
four explicit unicode spaces; general whitespace is not in this class). -/
def fallClassChar (c : Char) : Bool :=
  c.isDigit || c == '.' || c == ',' ||
  c.toNat == 0xA0 || c.toNat == 0x202F || c.toNat == 0x2007 || c.toNat == 0x2009

/-- First fallback alternative `€\s*[class]+`: greedy whitespace skip,
backtracking into the class run through the unicode-space members when
needed.  The capture spans the whole match. -/
def fallEuroAt (l : List Char) : Option (List Char) :=
  match l with
  | '€' :: rest =>
    let a := rest.takeWhile pyIsSpace
    let b := rest.drop a.length
    let run := b.takeWhile fallClassChar
    if run ≠ [] then some ('€' :: (a ++ run))
    else if (a.reverse.takeWhile fallClassChar) ≠ [] then some ('€' :: a)
    else none
  | _ => none

/-- `\s*(?:€\s*)?EUR\b`, returning the consumed characters. -/
def fallTail (l : List Char) : Option (List Char) :=
  let a := l.takeWhile pyIsSpace
  let r := l.drop a.length
  match r with
  | '€' :: r2 =>
    let b := r2.takeWhile pyIsSpace
    let r3 := r2.drop b.length
    (match takeLitCI "eur".toList r3 with
     | some e => if endBoundary (r3.drop 3) then some (a ++ '€' :: (b ++ e)) else none
     | none => none)
  | _ =>
    match takeLitCI "eur".toList r with
    | some e => if endBoundary (r.drop 3) then some (a ++ e) else none
    | none => none

/-- `(?:[.,]\d{3})*(?:[.,]\d{2})` then the tail: the greedy star is
explored first, falling back to the mandatory 2-digit group. -/
def fallGroupsTail : List Char → Option (List Char)
  | s :: d1 :: d2 :: d3 :: rest =>
    (if (s == '.' || s == ',') && d1.isDigit && d2.isDigit && d3.isDigit then
       match fallGroupsTail rest with
       | some t => some (s :: d1 :: d2 :: d3 :: t)
       | none =>
         if d3.isDigit then none  -- 2-digit group would leave a digit before the tail
         else (fallTail (d3 :: rest)).map (fun t => s :: d1 :: d2 :: t)
     else
       if (s == '.' || s == ',') && d1.isDigit && d2.isDigit then
         (fallTail (d3 :: rest)).map (fun t => s :: d1 :: d2 :: t)
       else none)
  | [s, d1, d2] =>
    if (s == '.' || s == ',') && d1.isDigit && d2.isDigit then
      (fallTail []).map (fun t => s :: d1 :: d2 :: t)
    else none
  | _ => none

/-- Second fallback alternative
`\b[\d]{1,3}(?:[.,]\d{3})*(?:[.,]\d{2})\s*(?:€\s*)?EUR\b`: the leading
digit group is greedy (3, then 2, then 1 digits). -/
def fallPlainAt (prev : Option Char) (l : List Char) : Option (List Char) :=
  if !startBoundary prev then none
  else
    let run := l.takeWhile Char.isDigit
    let n := min 3 run.length
    if n == 0 then none
    else
      let tryK : Nat → Option (List Char) := fun k =>
        if 1 ≤ k && k ≤ n then (fallGroupsTail (l.drop k)).map (fun t => l.take k ++ t)
        else none
      match tryK 3 with
      | some c => some c
      | none =>
        match tryK 2 with
        | some c => some c
        | none => tryK 1

/-- `_AMT_FALLBACK_RE` at one position: euro-prefixed alternative first. -/
def amtFallbackAt (prev : Option Char) (l : List Char) : Option (List Char) :=
  match fallEuroAt l with
  | some c => some c
  | none => fallPlainAt prev l

/-- Amount search of `parse_paypal_email`:
`_AMT_LABELED_RE.search(text) or _AMT_FALLBACK_RE.search(text)`. -/
def amountSearch (text : List Char) : Option (List Char) :=
  match searchCap (fun _ l => amtLabeledAt l) none text with
  | some c => some c
  | none => searchCap amtFallbackAt none text

/-- `\s*([^\n]+)` with give-back of trailing whitespace into the capture
when nothing non-whitespace follows. -/
def grabLine (l : List Char) : Option (List Char) :=
  let w := l.takeWhile pyIsSpace
  let r := l.drop w.length
  if r ≠ [] then some (r.takeWhile (fun c => c ≠ '\n'))
  else
    match (w.filter (fun c => c ≠ '\n')).getLast? with
    | some c => some [c]
    | none => none

/-- `_PAYER_LABEL_RE` at one position:
`(?:From|Von)\s*[:\-]?\s*([^\n]+)`. -/
def payerLabelAt (l : List Char) : Option (List Char) :=
  match (match matchLitCI "from".toList l with
         | some r => some r
         | none => matchLitCI "von".toList l) with
  | none => none
  | some l0 =>
    let w := l0.takeWhile pyIsSpace
    let r := l0.drop w.length
    match r with
    | ':' :: r1 =>
      (match grabLine r1 with
       | some cap => some cap
       | none => some (':' :: r1.takeWhile (fun c => c ≠ '\n')))
    | '-' :: r1 =>
      (match grabLine r1 with
       | some cap => some cap
       | none => some ('-' :: r1.takeWhile (fun c => c ≠ '\n')))
    | _ => grabLine l0

/-- `[A-Za-zÄÖÜäöüß .'\-]` of `_PAYER_HERO_RE`. -/
def heroClassChar (c : Char) : Bool :=
  ('a' ≤ c && c ≤ 'z') || ('A' ≤ c && c ≤ 'Z') ||
  (let n := c.toNat
   n == 0xC4 || n == 0xD6 || n == 0xDC || n == 0xE4 || n == 0xF6 || n == 0xFC || n == 0xDF) ||
  c == ' ' || c == '.' || c == '\'' || c == '-'

/-- `\bgesendet\b` right after a lazily consumed character `prev`. -/
def gesendetAt (prev : Char) (l : List Char) : Bool :=
  !pyIsWordChar prev &&
  (match matchLitCI "gesendet".toList l with
   | some r => endBoundary r
   | none => false)

/-- `.+?\bgesendet\b`: at least one non-newline character, then the
delimited word. -/
def dotPlusThenGesendet : List Char → Bool
  | [] => false
  | c :: rest => c ≠ '\n' && (gesendetAt c rest || dotPlusThenGesendet rest)

/-- `\s+hat\s+(?:dir|Ihnen)\s+.+?\bgesendet\b` (the part of the hero
pattern after the lazy name capture). -/
def heroTail (l : List Char) : Bool :=
  match wsPlus l with
  | none => false
  | some r1 =>
    match matchLitCI "hat".toList r1 with
    | none => false
    | some r2 =>
      match wsPlus r2 with
      | none => false
      | some r3 =>
        let afterDir : Option (List Char) :=
          match matchLitCI "dir".toList r3 with
          | some r => some r
          | none => matchLitCI "ihnen".toList r3
        match afterDir with
        | none => false
        | some r4 =>
          match wsPlus r4 with
          | none => false
          | some r5 => dotPlusThenGesendet r5

/-- The lazy capture `([A-Za-zÄÖÜäöüß .'\-]+?)`: grow one character at a
time until the tail matches. -/
def heroAux (accRev : List Char) : List Char → Option (List Char)
  | [] => none
  | c :: rest =>
    if heroTail (c :: rest) then some accRev.reverse
    else if heroClassChar c then heroAux (c :: accRev) rest
    else none

/-- `_PAYER_HERO_RE` at one position. -/
def heroAt : List Char → Option (List Char)
  | [] => none
  | c :: rest => if heroClassChar c then heroAux [c] rest else none

/-- Payer search of `parse_paypal_email`:
`_PAYER_LABEL_RE.search(text) or _PAYER_HERO_RE.search(text)`. -/
def payerSearch (text : List Char) : Option (List Char) :=
  match searchCap (fun _ l => payerLabelAt l) none text with
  | some c => some c
  | none => searchCap (fun _ l => heroAt l) none text

/-! ### `parse_paypal_email` (`donations/utils.py` lines 74-101) -/

structure ParsedEmail where
  transaction_id : String
  amount : PyDec
  currency : String
  payer_name : String
  deriving DecidableEq, Repr

/-- The body of `parse_paypal_email` after the stripping step: negative
check, transaction id, amount, best-effort payer. -/
def parseText (text : List Char) : Option ParsedEmail :=
  if negSearch text then none
  else
    match txSearch text with
    | none => none
    | some tid =>
      match amountSearch text with
      | none => none
      | some amtCap =>
        match normalizeAmountList amtCap with
        | none => none
        | some amt =>
          some ⟨(pyStrip tid).asString, amt, "EUR",
                match payerSearch text with
                | some p => (pyStrip p).asString
                | none => ""⟩

/-- `parse_paypal_email`: reject empty input, strip markup, then parse. -/
def parse_paypal_email (raw : String) : Option ParsedEmail :=
  if raw = "" then none
  else parseText (strip_tags_to_text raw.toList)

/-! ### MIME message model and `_extract_payload`
(`pull_paypal_emails.py` lines 49-89) -/

/-- An email message part: a leaf carries its declared content type, the
attachment flag of its `Content-Disposition` header, and the result of
`get_payload(decode=True)` (already decoded here; the source's
charset-fallback loop decodes with `errors="replace"` and so never
changes which part is selected).  `get_payload(decode=True)` on a
multipart container yields `None`. -/
inductive EmailPart where
  | leaf (ctype : String) (attachment : Bool) (payload : Option String)
  | multi (ctype : String) (parts : List EmailPart)

def ctypeOf : EmailPart → String
  | .leaf c _ _ => c
  | .multi c _ => c

def payloadOf : EmailPart → Option String
  | .leaf _ _ p => p
  | .multi _ _ => none

def isAttachmentPart : EmailPart → Bool
  | .leaf _ d _ => d
  | .multi _ _ => false

def strToLower (s : String) : String := (s.toList.map pyToLower).asString

mutual
/-- `Message.walk()`: depth-first, the part itself first. -/
def walk : EmailPart → List EmailPart
  | .leaf c d p => [.leaf c d p]
  | .multi c parts => .multi c parts :: walkList parts

def walkList : List EmailPart → List EmailPart
  | [] => []
  | p :: ps => walk p ++ walkList ps
end

/-- The `text/plain` fallback loop of `_extract_payload`: the first
`text/plain` part in walk order, if any, supplies the payload and sets
`used`; otherwise `used` keeps its earlier value. -/
def plainFallback (msg : EmailPart) (usedSoFar : String) : Option String × String :=
  match (walk msg).find? (fun part => strToLower (ctypeOf part) == "text/plain") with
  | some pp => (payloadOf pp, "text/plain")
  | none => (none, usedSoFar)

/-- `_extract_payload`: prefer the first `text/html` part of a multipart
message, fall back to the first `text/plain` part when its payload is
undecodable, and treat a flat message as its own single part.  The
attachment flag is never consulted. -/
def extract_payload (msg : EmailPart) : String × String :=
  let picked : Option String × String :=
    match msg with
    | .multi _ _ =>
      (match (walk msg).find? (fun part => strToLower (ctypeOf part) == "text/html") with
       | some hp =>
         (match payloadOf hp with
          | some s => (some s, "text/html")
          | none => plainFallback msg "text/html")
       | none => plainFallback msg "text/plain")
    | .leaf c _ p => (p, if c = "" then "text/plain" else c)
  match picked with
  | (some s, used) => (s, used)
  | (none, used) => ("", used)

/-! ### Ingestion loop (`pull_paypal_emails.py`, `Command.handle`,
lines 127-263) -/

/-- A `Donation` row as created by this code path (`models.py` lines
11-15): `message_id` is nullable with a unique constraint and defaults to
null when not supplied in the `create(**kwargs)` call. -/
structure DonationRow where
  amount : PyDec
  donor : Option String
  message_id : Option String
  deriving DecidableEq, Repr

/-- One mailbox message as the loop sees it.  `fetchOk` models
`M.fetch` returning OK with data, `bytesOk` models
`email.message_from_bytes` succeeding, and `createOk` injects a failure
of `Donation.objects.create` (a database exception). -/
structure MailMsg where
  uid : Nat
  fetchOk : Bool
  bytesOk : Bool
  subject : String
  fromAddr : String
  mime : EmailPart
  createOk : Bool

structure Opts where
  dry : Bool
  markSeen : Bool
  statePath : String

/-- Mutable state of one run: the in-memory dedup set, the database
tables touched (donations, donors by name), the set of uids stored with
`\Seen`, the four counters, and the sequence of `parse_paypal_email`
calls made (message uid paired with the parse result). -/
structure LoopState where
  seenTx : List String
  donations : List DonationRow
  donors : List String
  flagged : List Nat
  processed : Nat
  created : Nat
  alreadySeen : Nat
  parseFailed : Nat
  parseTrace : List (Nat × Option ParsedEmail)

/-- Case-insensitive donor lookup-or-create
(`Donor.objects.filter(name__iexact=payer).first()` / `.create`):
returns the resolved donor name and the donor table afterwards. -/
def resolveDonor (donors : List String) (payer : String) : Option String × List String :=
  if payer ≠ "" then
    match donors.find? (fun n => (n.toList.map pyToLower) == (payer.toList.map pyToLower)) with
    | some n => (some n, donors)
    | none => (some payer, donors ++ [payer])
  else (none, donors)

/-- The loop body for one message (lines 157-243).  The second component
is `false` when an exception escapes the body (a failing
`Donation.objects.create` inside `transaction.atomic`), which aborts the
whole run; the returned state is the state at that point (the insert
itself was the failing statement, so the transaction had nothing to roll
back, while the earlier donor resolution is outside the atomic block). -/
def processMessage (o : Opts) (st : LoopState) (m : MailMsg) : LoopState × Bool :=
  if !m.fetchOk then (st, true)
  else if !m.bytesOk then ({ st with parseFailed := st.parseFailed + 1 }, true)
  else if !(containsCI m.subject.toList "paypal".toList ||
            containsCI m.fromAddr.toList "paypal".toList) then
    ({ st with processed := st.processed + 1, parseFailed := st.parseFailed + 1,
               flagged := if o.markSeen && !o.dry then st.flagged ++ [m.uid] else st.flagged },
     true)
  else
    let body := (extract_payload m.mime).1
    let parsed := parse_paypal_email body
    let st1 := { st with processed := st.processed + 1,
                         parseTrace := st.parseTrace ++ [(m.uid, parsed)] }
    match parsed with
    | none =>
      ({ st1 with parseFailed := st1.parseFailed + 1,
                  flagged := if o.markSeen && !o.dry then st1.flagged ++ [m.uid] else st1.flagged },
       true)
    | some p =>
      let tx := p.transaction_id
      let payer := (pyStrip p.payer_name.toList).asString
      if tx ∈ st1.seenTx then
        ({ st1 with alreadySeen := st1.alreadySeen + 1,
                    flagged := if o.markSeen && !o.dry then st1.flagged ++ [m.uid] else st1.flagged },
         true)
      else
        let dr := resolveDonor st1.donors payer
        let st2 := { st1 with donors := dr.2 }
        if o.dry then (st2, true)
        else if !m.createOk then (st2, false)
        else
          ({ st2 with
              donations := st2.donations ++ [⟨p.amount, dr.1, none⟩],
              seenTx := st2.seenTx ++ [tx],
              created := st2.created + 1,
              flagged := if o.markSeen then st2.flagged ++ [m.uid] else st2.flagged },
           true)

/-- Fold the loop body over the selected messages; stop on an escaping
exception. -/
def runMsgs (o : Opts) : LoopState → List MailMsg → LoopState × Bool
  | st, [] => (st, true)
  | st, m :: ms =>
    let r := processMessage o st m
    if r.2 then runMsgs o r.1 ms else (r.1, false)

structure Summary where
  processed : Nat
  created : Nat
  alreadySeen : Nat
  parseFailed : Nat
  statePath : String
  deriving DecidableEq, Repr

/-- Observable outcome of one `handle` run: final state, whether the
loop completed without an escaping exception, the dedup set written to
the state file (`none` when nothing was written), and the end-of-run
summary line (`none` when none was emitted). -/
structure RunResult where
  final : LoopState
  completed : Bool
  stateSaved : Option (List String)
  summary : Option Summary

def initState (seen : List String) (db : List DonationRow) (donors : List String) : LoopState :=
  ⟨seen, db, donors, [], 0, 0, 0, 0, []⟩

/-- `Command.handle` after connect/select/search: `mailbox` is the id
list the search produced, `loadedSeen` the dedup set read from the state
file.  An empty selection prints a warning and returns before the
summary (lines 153-155); an escaping exception skips both the state
write and the summary; otherwise the state file is written unless in
dry-run, and the summary is emitted (the serialization order of the
saved set is irrelevant to its contents and not modelled). -/
def runHandle (o : Opts) (loadedSeen : List String) (db : List DonationRow)
    (donors : List String) (mailbox : List MailMsg) : RunResult :=
  let st0 := initState loadedSeen db donors
  if mailbox.isEmpty then
    { final := st0, completed := true, stateSaved := none, summary := none }
  else
    let r := runMsgs o st0 mailbox
    if r.2 then
      { final := r.1, completed := true,
        stateSaved := if o.dry then none else some r.1.seenTx,
        summary := some ⟨r.1.processed, r.1.created, r.1.alreadySeen, r.1.parseFailed, o.statePath⟩ }
    else
      { final := r.1, completed := false, stateSaved := none, summary := none }

/-! ### `verify_paypal_order` (`donations/views.py` lines 62-130) -/

/-- The names bound at module scope by the import lines of
`donations/views.py` (its lines 1-8).  `settings` (from `django.conf`)
and `os` are not among them. -/
def viewsModuleNames : List String :=
  ["Decimal", "JsonResponse", "View", "TemplateView", "Sum", "json",
   "Donation", "Goal", "Optional", "Dict"]

/-- One capture under `purchase_units[i].payments.captures`. -/
structure CaptureData where
  status : Option String
  value : Option String
  currency : Option String

/-- The JSON of the order-lookup response, with its HTTP status. -/
structure OrderResp where
  httpStatus : Nat
  orderStatus : Option String
  purchaseUnits : List (List CaptureData)

/-- The environment `verify_paypal_order` reads: credentials from
settings/env and the gateway's two endpoints. -/
structure Gateway where
  clientId : Option String
  secret : Option String
  tokenStatus : Nat
  accessToken : Option String
  orderLookup : String → OrderResp

/-- Truthiness of an `Option String` (`if not value`). -/
def truthy : Option String → Bool
  | none => false
  | some s => s ≠ ""

/-- `verify_paypal_order`.  Evaluation of its first statement (line 68)
resolves the global name `settings`, which the module never imports, so
every call raises `NameError` before the `try` block is entered; the
`except` at line 129 cannot catch it.  The intended flow that the rest of
the body expresses is embedded below the guard so that it remains
checkable against the source. -/
def verify_paypal_order (gw : Gateway) (order_id : String) :
    Except String (Option (PyDec × String)) :=
  if !(viewsModuleNames.contains "settings") then
    .error "NameError: name 'settings' is not defined"
  else
    if !(truthy gw.clientId) || !(truthy gw.secret) then .ok none
    else if gw.tokenStatus ≠ 200 then .ok none
    else if !(truthy gw.accessToken) then .ok none
    else
      let resp := gw.orderLookup order_id
      if resp.httpStatus ≠ 200 then .ok none
      else if resp.orderStatus ≠ some "COMPLETED" then .ok none
      else
        match resp.purchaseUnits with
        | [] => .ok none
        | caps :: _ =>
          match caps with
          | [] => .ok none
          | cap :: _ =>
            if cap.status ≠ some "COMPLETED" then .ok none
            else if !(truthy cap.value) || !(truthy cap.currency) then .ok none
            else
              match (pyDecimalOfList (cap.value.getD "").toList).bind quantize2 with
              | none => .ok none  -- Decimal/quantize raises inside the try: caught, None
              | some amt => .ok (some (amt, cap.currency.getD ""))

/-! ### Auxiliary definitions used by the statements below -/

/-- Interpretation used to state the separator rule of the amount
normalizer: read `t` taking `dec` as the decimal-point character after
deleting every occurrence of the thousands separator `kilo`. -/
def interpretWith (t : List Char) (dec kilo : Char) : Option PyDec :=
  (pyDecimalOfList ((t.filter (fun c => c ≠ kilo)).map
    (fun c => if c == dec then '.' else c))).bind quantize2

mutual
/-- Rewrite every attachment flag of a message by `g` (used to state that
part selection never consults the flag). -/
def mapDispo (g : Bool → Bool) : EmailPart → EmailPart
  | .leaf c d p => .leaf c (g d) p
  | .multi c parts => .multi c (mapDispoList g parts)

def mapDispoList (g : Bool → Bool) : List EmailPart → List EmailPart
  | [] => []
  | p :: ps => mapDispo g p :: mapDispoList g ps
end

/-- A multipart message whose only `text/html` part is an attachment,
while a non-attachment `text/plain` body is present. -/
def attachmentHtmlMsg : EmailPart :=
  .multi "multipart/mixed"
    [.leaf "text/html" true (some "ATTACHED"),
     .leaf "text/plain" false (some "BODY")]

/-- The `parse_paypal_email` call a message gives rise to, if any: only
fetched, byte-parsed, paypal-allowlisted messages reach the parser, and
the call depends on nothing but the message. -/
def msgTraceEntry (m : MailMsg) : Option (Nat × Option ParsedEmail) :=
  if m.fetchOk && m.bytesOk &&
     (containsCI m.subject.toList "paypal".toList ||
      containsCI m.fromAddr.toList "paypal".toList) then
    some (m.uid, parse_paypal_email (extract_payload m.mime).1)
  else none

def mailboxTrace (mb : List MailMsg) : List (Nat × Option ParsedEmail) :=
  mb.filterMap msgTraceEntry

/-- A well-formed plaintext mailbox message used by concrete instances. -/
def mkMsg (uid : Nat) (body : String) : MailMsg :=
  ⟨uid, true, true, "PayPal payment received", "service@paypal.de",
   .leaf "text/plain" false (some body), true⟩

def optsReal : Opts := ⟨false, true, ".paypal_ingest_state.json"⟩

def optsDry : Opts := ⟨true, true, ".paypal_ingest_state.json"⟩

/-- The body text used by the concrete instances below. -/
def okBody : String :=
  "Transaktionscode: 1AB2C3D4E5F6G7H8\nBetrag: 12,50 EUR"

/-! ### Theorems -/

theorem quantize2_exp {d e : PyDec} (h : quantize2 d = some e) : e.exp = -2 := by
  unfold quantize2 at h
  split at h <;> dsimp only at h <;> split at h <;>
    first
      | exact Option.noConfusion h
      | (injection h with h2; subst h2; rfl)

theorem if_dot_eq (c : Char) : (if c == '.' then '.' else c) = c := by
  by_cases h : c = '.'
  · simp [h]
  · simp [h]

theorem map_dot_id (l : List Char) : l.map (fun c => if c == '.' then '.' else c) = l := by
  have h : (fun c : Char => if c == '.' then '.' else c) = fun c => c := funext if_dot_eq
  rw [h, List.map_id']

theorem cleaned_ne_nil_of_contains {s : String} {c : Char}
    (h : (cleanedAmount s.toList).contains c = true) : s.toList ≠ [] := by
  intro h0
  rw [h0] at h
  have h1 : (cleanedAmount ([] : List Char)).contains c = false := rfl
  rw [h1] at h
  exact Bool.noConfusion h

theorem filter_ne_dot_of_not_contains {t : List Char} (h : t.contains '.' = false) :
    t.filter (fun c => c ≠ '.') = t := by
  apply List.filter_eq_self.mpr
  intro a ha
  simp only [ne_eq, decide_eq_true_eq]
  intro he
  subst he
  have h2 : t.elem '.' = true := List.elem_iff.mpr ha
  rw [show t.contains '.' = t.elem '.' from rfl, h2] at h
  exact Bool.noConfusion h

/-- C2: amount normalizer contract.  With both separators present in the
cleaned string, the one whose last occurrence is later is read as the
decimal point and the other is deleted as a thousands separator; a lone
comma is the decimal point; every successful result is quantized to
exactly two fraction digits; the spec's examples and failure cases
evaluate as stated.  The function is total by construction: every failure
path of the source returns `None`, never an exception. -/
theorem amount_normalizer_contract :
    (∀ s : String,
      ((cleanedAmount s.toList).contains ',' = true →
        (cleanedAmount s.toList).contains '.' = true →
        ((pyRfind (cleanedAmount s.toList) ',' > pyRfind (cleanedAmount s.toList) '.' →
           normalize_amount_to_decimal s = interpretWith (cleanedAmount s.toList) ',' '.') ∧
         (¬ pyRfind (cleanedAmount s.toList) ',' > pyRfind (cleanedAmount s.toList) '.' →
           normalize_amount_to_decimal s = interpretWith (cleanedAmount s.toList) '.' ','))) ∧
      ((cleanedAmount s.toList).contains ',' = true →
        (cleanedAmount s.toList).contains '.' = false →
        normalize_amount_to_decimal s = interpretWith (cleanedAmount s.toList) ',' '.')) ∧
    (∀ s d, normalize_amount_to_decimal s = some d → d.exp = -2) ∧
    normalize_amount_to_decimal "1.234,56" = some ⟨false, 123456, -2⟩ ∧
    normalize_amount_to_decimal "1,234.56" = some ⟨false, 123456, -2⟩ ∧
    normalize_amount_to_decimal "12,50" = some ⟨false, 1250, -2⟩ ∧
    normalize_amount_to_decimal "" = none ∧
    normalize_amount_to_decimal "abc" = none ∧
    normalize_amount_to_decimal "€" = none := by
  refine ⟨?_, ?_, by decide, by decide, by decide, by decide, by decide, by decide⟩
  · intro s
    constructor
    · intro hc hd
      have hne := cleaned_ne_nil_of_contains hc
      constructor
      · intro hcmp
        unfold normalize_amount_to_decimal normalizeAmountList
        rw [if_neg hne]
        unfold sepAdjusted
        simp only [hc, hd, Bool.and_self, if_true]
        rw [if_pos hcmp]
        rfl
      · intro hcmp
        unfold normalize_amount_to_decimal normalizeAmountList
        rw [if_neg hne]
        unfold sepAdjusted
        simp only [hc, hd, Bool.and_self, if_true]
        rw [if_neg hcmp]
        unfold interpretWith
        rw [map_dot_id]
    · intro hc hd
      have hne := cleaned_ne_nil_of_contains hc
      unfold normalize_amount_to_decimal normalizeAmountList
      rw [if_neg hne]
      unfold sepAdjusted
      simp only [hc, hd, Bool.and_false, Bool.false_and, if_false, if_true]
      rw [if_neg Bool.false_ne_true]
      unfold interpretWith
      rw [filter_ne_dot_of_not_contains hd]
  · intro s d h
    unfold normalize_amount_to_decimal normalizeAmountList at h
    split at h
    · exact Option.noConfusion h
    · obtain ⟨p, hp, hq⟩ := Option.bind_eq_some.mp h
      exact quantize2_exp hq

/-- Concrete instance of the separator rule: `"12,50"` takes the lone
comma as the decimal point and normalizes to `12.50`. -/
theorem amount_normalizer_contract_witness :
    normalize_amount_to_decimal "12,50" =
      interpretWith (cleanedAmount "12,50".toList) ',' '.' ∧
    interpretWith (cleanedAmount "12,50".toList) ',' '.' = some ⟨false, 1250, -2⟩ :=
  ⟨(amount_normalizer_contract.1 "12,50").2 (by decide) (by decide), by decide⟩

theorem parseText_neg {text : List Char} (h : negSearch text = true) :
    parseText text = none := by
  unfold parseText
  rw [h, if_pos rfl]

/-- C3: negative-signal precedence.  Any input whose stripped text
matches `_NEGATIVE_RE` parses to `none`, regardless of any transaction
code or labeled amount it also contains: the negative check runs before
all field extraction. -/
theorem negative_signal_precedence (raw : String)
    (h : negSearch (strip_tags_to_text raw.toList) = true) :
    parse_paypal_email raw = none := by
  unfold parse_paypal_email
  by_cases h0 : raw = ""
  · rw [if_pos h0]
  · rw [if_neg h0]
    exact parseText_neg h

/-- A sent-payment text that also carries a valid transaction code and a
valid labeled amount is still rejected. -/
theorem negative_signal_precedence_witness :
    negSearch (strip_tags_to_text
      "You sent a payment\nTransaktionscode: 1AB2C3D4E5F6G7H8\nBetrag: 12,50 EUR".toList) = true ∧
    txSearch (strip_tags_to_text
      "You sent a payment\nTransaktionscode: 1AB2C3D4E5F6G7H8\nBetrag: 12,50 EUR".toList) ≠ none ∧
    amountSearch (strip_tags_to_text
      "You sent a payment\nTransaktionscode: 1AB2C3D4E5F6G7H8\nBetrag: 12,50 EUR".toList) ≠ none ∧
    parse_paypal_email
      "You sent a payment\nTransaktionscode: 1AB2C3D4E5F6G7H8\nBetrag: 12,50 EUR" = none :=
  ⟨by decide, by decide, by decide, negative_signal_precedence _ (by decide)⟩

theorem parseText_definitive (text : List Char) :
    (∀ r, parseText text = some r → r.currency = "EUR") ∧
    (payerSearch text = none → ∀ r, parseText text = some r → r.payer_name = "") ∧
    (parseText text = none →
      negSearch text = true ∨ txSearch text = none ∨ amountSearch text = none ∨
      ∃ a, amountSearch text = some a ∧ normalizeAmountList a = none) := by
  unfold parseText
  cases hneg : negSearch text with
  | true =>
    rw [if_pos rfl]
    exact ⟨fun r h => Option.noConfusion h, fun _ r h => Option.noConfusion h,
           fun _ => Or.inl rfl⟩
  | false =>
    rw [if_neg Bool.false_ne_true]
    cases htx : txSearch text with
    | none =>
      dsimp only
      exact ⟨fun r h => Option.noConfusion h, fun _ r h => Option.noConfusion h,
             fun _ => Or.inr (Or.inl rfl)⟩
    | some tid =>
      dsimp only
      cases hamt : amountSearch text with
      | none =>
        dsimp only
        exact ⟨fun r h => Option.noConfusion h, fun _ r h => Option.noConfusion h,
               fun _ => Or.inr (Or.inr (Or.inl rfl))⟩
      | some a =>
        dsimp only
        cases hnorm : normalizeAmountList a with
        | none =>
          dsimp only
          exact ⟨fun r h => Option.noConfusion h, fun _ r h => Option.noConfusion h,
                 fun _ => Or.inr (Or.inr (Or.inr ⟨a, rfl, hnorm⟩))⟩
        | some amt =>
          dsimp only
          refine ⟨?_, ?_, fun h => Option.noConfusion h⟩
          · intro r h
            injection h with h2
            subst h2
            rfl
          · intro hp r h
            rw [hp] at h
            injection h with h2
            subst h2
            rfl

/-- C6: parser definitiveness.  A `some` result is a complete record
whose currency is always `"EUR"`; when no payer pattern matches, the
record is still produced with the empty payer name; and every `none` is
explained by one of the payer-independent gates (empty input, negative
signal, missing transaction id, missing or unnormalizable amount), so
payer absence is never a rejection condition. -/
theorem parser_definitive (raw : String) :
    (∀ r, parse_paypal_email raw = some r → r.currency = "EUR") ∧
    (payerSearch (strip_tags_to_text raw.toList) = none →
      ∀ r, parse_paypal_email raw = some r → r.payer_name = "") ∧
    (parse_paypal_email raw = none →
      raw = "" ∨ negSearch (strip_tags_to_text raw.toList) = true ∨
      txSearch (strip_tags_to_text raw.toList) = none ∨
      amountSearch (strip_tags_to_text raw.toList) = none ∨
      ∃ a, amountSearch (strip_tags_to_text raw.toList) = some a ∧
           normalizeAmountList a = none) := by
  unfold parse_paypal_email
  by_cases h0 : raw = ""
  · rw [if_pos h0]
    exact ⟨fun r h => Option.noConfusion h, fun _ r h => Option.noConfusion h,
           fun _ => Or.inl h0⟩
  · rw [if_neg h0]
    obtain ⟨p1, p2, p3⟩ := parseText_definitive (strip_tags_to_text raw.toList)
    exact ⟨p1, p2, fun h => (p3 h).elim (fun a => Or.inr (Or.inl a))
      (fun b => b.elim (fun c => Or.inr (Or.inr (Or.inl c)))
        (fun d => d.elim (fun e => Or.inr (Or.inr (Or.inr (Or.inl e))))
          (fun f => Or.inr (Or.inr (Or.inr (Or.inr f))))))⟩

/-- A text with transaction code and amount but no payer pattern is
accepted with the empty payer name. -/
theorem parser_definitive_witness :
    payerSearch (strip_tags_to_text okBody.toList) = none ∧
    parse_paypal_email okBody =
      some ⟨"1AB2C3D4E5F6G7H8", ⟨false, 1250, -2⟩, "EUR", ""⟩ ∧
    (⟨"1AB2C3D4E5F6G7H8", ⟨false, 1250, -2⟩, "EUR", ""⟩ : ParsedEmail).payer_name = "" :=
  ⟨by decide, by decide,
   (parser_definitive okBody).2.1 (by decide) _ (by decide)⟩

/-- C9 (code defect): `verify_paypal_order` can never return a value —
its first statement (line 68) reads the global name `settings`, which
`donations/views.py` never imports, so every call raises `NameError`
before the `try` block is entered; the `except` clause cannot catch it
and the documented "on any issue, return None" contract is unmet. -/
theorem verify_paypal_order_raises (gw : Gateway) (order_id : String) :
    verify_paypal_order gw order_id =
      .error "NameError: name 'settings' is not defined" := rfl

theorem pm_dup {o : Opts} {st : LoopState} {m : MailMsg} {p : ParsedEmail}
    (hf : m.fetchOk = true) (hb : m.bytesOk = true)
    (hpp : (containsCI m.subject.toList "paypal".toList ||
            containsCI m.fromAddr.toList "paypal".toList) = true)
    (hparse : parse_paypal_email (extract_payload m.mime).1 = some p)
    (hdup : p.transaction_id ∈ st.seenTx) :
    processMessage o st m =
      ({ st with processed := st.processed + 1,
                 parseTrace := st.parseTrace ++ [(m.uid, some p)],
                 alreadySeen := st.alreadySeen + 1,
                 flagged := if o.markSeen && !o.dry then st.flagged ++ [m.uid]
                            else st.flagged }, true) := by
  unfold processMessage
  rw [hf, hb, hpp]
  simp only [Bool.not_true, Bool.false_eq_true, if_false, hparse]
  rw [if_pos hdup]

theorem pm_dry {o : Opts} {st : LoopState} {m : MailMsg} {p : ParsedEmail}
    (hf : m.fetchOk = true) (hb : m.bytesOk = true)
    (hpp : (containsCI m.subject.toList "paypal".toList ||
            containsCI m.fromAddr.toList "paypal".toList) = true)
    (hparse : parse_paypal_email (extract_payload m.mime).1 = some p)
    (hdup : p.transaction_id ∉ st.seenTx) (hdry : o.dry = true) :
    processMessage o st m =
      ({ st with processed := st.processed + 1,
                 parseTrace := st.parseTrace ++ [(m.uid, some p)],
                 donors := (resolveDonor st.donors
                   ((pyStrip p.payer_name.toList).asString)).2 }, true) := by
  unfold processMessage
  rw [hf, hb, hpp]
  simp only [Bool.not_true, Bool.false_eq_true, if_false, hparse]
  rw [if_neg hdup, if_pos hdry]

theorem pm_create_fail {o : Opts} {st : LoopState} {m : MailMsg} {p : ParsedEmail}
    (hf : m.fetchOk = true) (hb : m.bytesOk = true)
    (hpp : (containsCI m.subject.toList "paypal".toList ||
            containsCI m.fromAddr.toList "paypal".toList) = true)
    (hparse : parse_paypal_email (extract_payload m.mime).1 = some p)
    (hdup : p.transaction_id ∉ st.seenTx) (hdry : o.dry = false)
    (hco : m.createOk = false) :
    processMessage o st m =
      ({ st with processed := st.processed + 1,
                 parseTrace := st.parseTrace ++ [(m.uid, some p)],
                 donors := (resolveDonor st.donors
                   ((pyStrip p.payer_name.toList).asString)).2 }, false) := by
  unfold processMessage
  rw [hf, hb, hpp]
  simp only [Bool.not_true, Bool.not_false, Bool.false_eq_true, if_false, if_true,
    hparse, hdry, hco]
  rw [if_neg hdup]

theorem pm_create {o : Opts} {st : LoopState} {m : MailMsg} {p : ParsedEmail}
    (hf : m.fetchOk = true) (hb : m.bytesOk = true)
    (hpp : (containsCI m.subject.toList "paypal".toList ||
            containsCI m.fromAddr.toList "paypal".toList) = true)
    (hparse : parse_paypal_email (extract_payload m.mime).1 = some p)
    (hdup : p.transaction_id ∉ st.seenTx) (hdry : o.dry = false)
    (hco : m.createOk = true) :
    processMessage o st m =
      ({ st with processed := st.processed + 1,
                 parseTrace := st.parseTrace ++ [(m.uid, some p)],
                 donors := (resolveDonor st.donors
                   ((pyStrip p.payer_name.toList).asString)).2,
                 donations := st.donations ++
                   [⟨p.amount, (resolveDonor st.donors
                      ((pyStrip p.payer_name.toList).asString)).1, none⟩],
                 seenTx := st.seenTx ++ [p.transaction_id],
                 created := st.created + 1,
                 flagged := if o.markSeen then st.flagged ++ [m.uid]
                            else st.flagged }, true) := by
  unfold processMessage
  rw [hf, hb, hpp]
  simp only [Bool.not_true, Bool.not_false, Bool.false_eq_true, if_false, if_true,
    hparse, hdry, hco]
  rw [if_neg hdup]

theorem runMsgs_single (o : Opts) (st : LoopState) (m : MailMsg) :
    runMsgs o st [m] = ((processMessage o st m).1, (processMessage o st m).2) := by
  cases h : (processMessage o st m).2 with
  | true => simp [runMsgs, h]
  | false => simp [runMsgs, h]

theorem runHandle_cons (o : Opts) (seen : List String) (db : List DonationRow)
    (dn : List String) (m : MailMsg) (ms : List MailMsg) :
    runHandle o seen db dn (m :: ms) =
      (if (runMsgs o (initState seen db dn) (m :: ms)).2 then
        { final := (runMsgs o (initState seen db dn) (m :: ms)).1, completed := true,
          stateSaved := if o.dry then none
                        else some (runMsgs o (initState seen db dn) (m :: ms)).1.seenTx,
          summary := some ⟨(runMsgs o (initState seen db dn) (m :: ms)).1.processed,
                           (runMsgs o (initState seen db dn) (m :: ms)).1.created,
                           (runMsgs o (initState seen db dn) (m :: ms)).1.alreadySeen,
                           (runMsgs o (initState seen db dn) (m :: ms)).1.parseFailed,
                           o.statePath⟩ }
      else { final := (runMsgs o (initState seen db dn) (m :: ms)).1, completed := false,
             stateSaved := none, summary := none }) := by
  unfold runHandle
  rw [if_neg (show ¬((m :: ms).isEmpty = true) by simp)]

/-- C4: commit atomicity.  If the `Donation` insert for an accepted new
message raises, the loop body aborts with the dedup set, the mailbox
flags, and the donation table unchanged; and the `\Seen` flag for such a
message is only ever stored after the insert has succeeded and the
donation row exists. -/
theorem commit_atomicity :
    (∀ (o : Opts) (st : LoopState) (m : MailMsg) (p : ParsedEmail),
      m.fetchOk = true → m.bytesOk = true →
      (containsCI m.subject.toList "paypal".toList ||
       containsCI m.fromAddr.toList "paypal".toList) = true →
      parse_paypal_email (extract_payload m.mime).1 = some p →
      p.transaction_id ∉ st.seenTx → o.dry = false → m.createOk = false →
      (processMessage o st m).2 = false ∧
      (processMessage o st m).1.seenTx = st.seenTx ∧
      (processMessage o st m).1.flagged = st.flagged ∧
      (processMessage o st m).1.donations = st.donations) ∧
    (∀ (o : Opts) (st : LoopState) (m : MailMsg) (p : ParsedEmail),
      m.fetchOk = true → m.bytesOk = true →
      (containsCI m.subject.toList "paypal".toList ||
       containsCI m.fromAddr.toList "paypal".toList) = true →
      parse_paypal_email (extract_payload m.mime).1 = some p →
      p.transaction_id ∉ st.seenTx → o.dry = false →
      (processMessage o st m).1.flagged ≠ st.flagged →
      m.createOk = true ∧
      (processMessage o st m).1.donations = st.donations ++
        [⟨p.amount, (resolveDonor st.donors
           ((pyStrip p.payer_name.toList).asString)).1, none⟩]) := by
  constructor
  · intro o st m p hf hb hpp hparse hdup hdry hco
    rw [pm_create_fail hf hb hpp hparse hdup hdry hco]
    exact ⟨rfl, rfl, rfl, rfl⟩
  · intro o st m p hf hb hpp hparse hdup hdry hflag
    cases hco : m.createOk with
    | false =>
      rw [pm_create_fail hf hb hpp hparse hdup hdry hco] at hflag
      exact absurd rfl hflag
    | true =>
      rw [pm_create hf hb hpp hparse hdup hdry hco] at hflag ⊢
      exact ⟨rfl, rfl⟩

/-- Concrete instance: a failing insert leaves dedup set, flags and
ledger untouched and aborts the run. -/
theorem commit_atomicity_witness :
    (processMessage optsReal (initState [] [] [])
       { mkMsg 1 okBody with createOk := false }).2 = false ∧
    (processMessage optsReal (initState [] [] [])
       { mkMsg 1 okBody with createOk := false }).1.seenTx = [] ∧
    (processMessage optsReal (initState [] [] [])
       { mkMsg 1 okBody with createOk := false }).1.flagged = [] ∧
    (processMessage optsReal (initState [] [] [])
       { mkMsg 1 okBody with createOk := false }).1.donations = [] :=
  (commit_atomicity.1 optsReal (initState [] [] [])
    { mkMsg 1 okBody with createOk := false }
    ⟨"1AB2C3D4E5F6G7H8", ⟨false, 1250, -2⟩, "EUR", ""⟩
    (by decide) (by decide) (by decide) (by decide)
    (by simp [initState]) (by decide) (by decide))

/-- C1: ingestion idempotence.  A message parsing to a transaction
identifier already in the dedup set creates no donation, leaves the set
unchanged, and bumps the duplicate counter; and a second full run over a
mailbox whose only message carries an already-committed identifier
(loaded from the state file the first run wrote) adds no second donation
and reports one duplicate. -/
theorem ingestion_idempotent :
    (∀ (o : Opts) (st : LoopState) (m : MailMsg) (p : ParsedEmail),
      m.fetchOk = true → m.bytesOk = true →
      (containsCI m.subject.toList "paypal".toList ||
       containsCI m.fromAddr.toList "paypal".toList) = true →
      parse_paypal_email (extract_payload m.mime).1 = some p →
      p.transaction_id ∈ st.seenTx →
      (processMessage o st m).1.donations = st.donations ∧
      (processMessage o st m).1.seenTx = st.seenTx ∧
      (processMessage o st m).1.alreadySeen = st.alreadySeen + 1 ∧
      (processMessage o st m).1.created = st.created ∧
      (processMessage o st m).2 = true) ∧
    (∀ (o : Opts) (m : MailMsg) (p : ParsedEmail)
       (db : List DonationRow) (dn : List String),
      m.fetchOk = true → m.bytesOk = true →
      (containsCI m.subject.toList "paypal".toList ||
       containsCI m.fromAddr.toList "paypal".toList) = true →
      parse_paypal_email (extract_payload m.mime).1 = some p →
      o.dry = false → m.createOk = true →
      (runHandle o [] db dn [m]).final.created = 1 ∧
      (runHandle o [] db dn [m]).stateSaved = some [p.transaction_id] ∧
      (runHandle o ((runHandle o [] db dn [m]).stateSaved.getD [])
                 (runHandle o [] db dn [m]).final.donations
                 (runHandle o [] db dn [m]).final.donors [m]).final.donations =
        (runHandle o [] db dn [m]).final.donations ∧
      (runHandle o ((runHandle o [] db dn [m]).stateSaved.getD [])
                 (runHandle o [] db dn [m]).final.donations
                 (runHandle o [] db dn [m]).final.donors [m]).final.alreadySeen = 1 ∧
      (runHandle o ((runHandle o [] db dn [m]).stateSaved.getD [])
                 (runHandle o [] db dn [m]).final.donations
                 (runHandle o [] db dn [m]).final.donors [m]).final.created = 0) := by
  constructor
  · intro o st m p hf hb hpp hparse hdup
    rw [pm_dup hf hb hpp hparse hdup]
    exact ⟨rfl, rfl, rfl, rfl, rfl⟩
  · intro o m p db dn hf hb hpp hparse hdry hco
    have hdup1 : p.transaction_id ∉ (initState [] db dn).seenTx := by simp [initState]
    have h1 := @pm_create o (initState [] db dn) m p hf hb hpp hparse hdup1 hdry hco
    have hr1 : runHandle o [] db dn [m] =
        { final := (processMessage o (initState [] db dn) m).1, completed := true,
          stateSaved := some (processMessage o (initState [] db dn) m).1.seenTx,
          summary := some ⟨(processMessage o (initState [] db dn) m).1.processed,
                           (processMessage o (initState [] db dn) m).1.created,
                           (processMessage o (initState [] db dn) m).1.alreadySeen,
                           (processMessage o (initState [] db dn) m).1.parseFailed,
                           o.statePath⟩ } := by
      rw [runHandle_cons, runMsgs_single, h1]
      simp [hdry]
    have hseen1 : (processMessage o (initState [] db dn) m).1.seenTx =
        [p.transaction_id] := by
      rw [h1]; simp [initState]
    have hcre1 : (processMessage o (initState [] db dn) m).1.created = 1 := by
      rw [h1]; simp [initState]
    refine ⟨by rw [hr1]; exact hcre1, by rw [hr1]; simp [hseen1], ?_⟩
    rw [hr1]
    dsimp only
    rw [hseen1]
    dsimp only [Option.getD]
    set st1 := (processMessage o (initState [] db dn) m).1 with hst1
    have hdup2 : p.transaction_id ∈
        (initState [p.transaction_id] st1.donations st1.donors).seenTx := by
      simp [initState]
    have h2 := @pm_dup o (initState [p.transaction_id] st1.donations st1.donors) m p
      hf hb hpp hparse hdup2
    rw [runHandle_cons, runMsgs_single, h2]
    simp [initState]

/-- Concrete two-run instance: the second run over the committed
transaction reports a duplicate and creates nothing. -/
theorem ingestion_idempotent_witness :
    (runHandle optsReal [] [] [] [mkMsg 1 okBody]).final.created = 1 ∧
    (runHandle optsReal
       ((runHandle optsReal [] [] [] [mkMsg 1 okBody]).stateSaved.getD [])
       (runHandle optsReal [] [] [] [mkMsg 1 okBody]).final.donations
       (runHandle optsReal [] [] [] [mkMsg 1 okBody]).final.donors
       [mkMsg 1 okBody]).final.donations =
      (runHandle optsReal [] [] [] [mkMsg 1 okBody]).final.donations ∧
    (runHandle optsReal
       ((runHandle optsReal [] [] [] [mkMsg 1 okBody]).stateSaved.getD [])
       (runHandle optsReal [] [] [] [mkMsg 1 okBody]).final.donations
       (runHandle optsReal [] [] [] [mkMsg 1 okBody]).final.donors
       [mkMsg 1 okBody]).final.alreadySeen = 1 := by
  obtain ⟨a, b, c, d, e⟩ := ingestion_idempotent.2 optsReal (mkMsg 1 okBody)
    ⟨"1AB2C3D4E5F6G7H8", ⟨false, 1250, -2⟩, "EUR", ""⟩ [] []
    (by decide) (by decide) (by decide) (by decide) (by decide) (by decide)
  exact ⟨a, c, d⟩

theorem pm_dry_frame (o : Opts) (st : LoopState) (m : MailMsg) (hdry : o.dry = true) :
    (processMessage o st m).2 = true ∧
    (processMessage o st m).1.donations = st.donations ∧
    (processMessage o st m).1.seenTx = st.seenTx ∧
    (processMessage o st m).1.flagged = st.flagged := by
  unfold processMessage
  simp only [hdry, Bool.not_true, Bool.and_false, Bool.false_eq_true, if_false, if_true]
  repeat' split
  all_goals exact ⟨rfl, rfl, rfl, rfl⟩

theorem runMsgs_dry_frame (o : Opts) (hdry : o.dry = true) :
    ∀ (mb : List MailMsg) (st : LoopState),
    (runMsgs o st mb).2 = true ∧
    (runMsgs o st mb).1.donations = st.donations ∧
    (runMsgs o st mb).1.seenTx = st.seenTx ∧
    (runMsgs o st mb).1.flagged = st.flagged := by
  intro mb
  induction mb with
  | nil => intro st; exact ⟨rfl, rfl, rfl, rfl⟩
  | cons m ms ih =>
    intro st
    obtain ⟨h2, hdon, hseen, hflag⟩ := pm_dry_frame o st m hdry
    simp only [runMsgs, h2, if_true]
    obtain ⟨i2, idon, iseen, iflag⟩ := ih (processMessage o st m).1
    exact ⟨i2, idon.trans hdon, iseen.trans hseen, iflag.trans hflag⟩

theorem pm_no_abort (o : Opts) (st : LoopState) (m : MailMsg)
    (h : o.dry = true ∨ m.createOk = true) :
    (processMessage o st m).2 = true := by
  unfold processMessage
  split
  · rfl
  · split
    · rfl
    · split
      · rfl
      · dsimp only
        cases hp : parse_paypal_email (extract_payload m.mime).1 with
        | none => rfl
        | some p =>
          dsimp only
          split
          · rfl
          · split
            · rfl
            · split
              · simp_all
              · rfl

theorem pm_trace (o : Opts) (st : LoopState) (m : MailMsg) :
    (processMessage o st m).1.parseTrace =
      st.parseTrace ++ (msgTraceEntry m).toList := by
  unfold processMessage msgTraceEntry
  cases hf : m.fetchOk with
  | false => simp [hf]
  | true =>
    cases hb : m.bytesOk with
    | false => simp [hb]
    | true =>
      cases hpp : (containsCI m.subject.toList "paypal".toList ||
                   containsCI m.fromAddr.toList "paypal".toList) with
      | false => simp [hf, hb, hpp]
      | true =>
        simp only [hf, hb, hpp, Bool.not_true, Bool.false_eq_true, if_false,
          Bool.true_and, Bool.and_self, if_true, Option.toList_some]
        repeat' split
        all_goals rfl

theorem runMsgs_trace (o : Opts) :
    ∀ (mb : List MailMsg) (st : LoopState),
    (o.dry = true ∨ ∀ m ∈ mb, m.createOk = true) →
    (runMsgs o st mb).1.parseTrace = st.parseTrace ++ mailboxTrace mb := by
  intro mb
  induction mb with
  | nil => intro st _; simp [runMsgs, mailboxTrace]
  | cons m ms ih =>
    intro st hok
    have hm : o.dry = true ∨ m.createOk = true := by
      rcases hok with h | h
      · exact Or.inl h
      · exact Or.inr (h m (List.mem_cons_self m ms))
    have hms : o.dry = true ∨ ∀ x ∈ ms, x.createOk = true := by
      rcases hok with h | h
      · exact Or.inl h
      · exact Or.inr fun x hx => h x (List.mem_cons_of_mem m hx)
    simp only [runMsgs, pm_no_abort o st m hm, if_true]
    rw [ih (processMessage o st m).1 hms, pm_trace]
    simp [mailboxTrace, List.filterMap_cons]
    cases he : msgTraceEntry m <;> simp [he]

/-- C5: dry-run frame.  With the dry-run flag set a full run creates no
donations, adds nothing to the dedup set, stores no mailbox flags, and
writes no state file, while the sequence of text-extraction/parse calls
(message uid and parse result) is identical to that of a real run over
the same mailbox. -/
theorem dry_run_frame :
    (∀ (o : Opts) (seen : List String) (db : List DonationRow) (dn : List String)
       (mb : List MailMsg), o.dry = true →
       (runHandle o seen db dn mb).completed = true ∧
       (runHandle o seen db dn mb).final.donations = db ∧
       (runHandle o seen db dn mb).final.seenTx = seen ∧
       (runHandle o seen db dn mb).final.flagged = [] ∧
       (runHandle o seen db dn mb).stateSaved = none) ∧
    (∀ (o o' : Opts) (seen : List String) (db : List DonationRow) (dn : List String)
       (mb : List MailMsg), o.dry = true → o'.dry = false →
       (∀ m ∈ mb, m.createOk = true) →
       (runHandle o seen db dn mb).final.parseTrace =
         (runHandle o' seen db dn mb).final.parseTrace) := by
  constructor
  · intro o seen db dn mb hdry
    unfold runHandle
    cases he : mb.isEmpty with
    | true => exact ⟨rfl, rfl, rfl, rfl, rfl⟩
    | false =>
      rw [if_neg Bool.false_ne_true]
      obtain ⟨h2, hdon, hseen, hflag⟩ := runMsgs_dry_frame o hdry mb (initState seen db dn)
      rw [if_pos h2]
      exact ⟨rfl, hdon, hseen, hflag, by rw [hdry]; rfl⟩
  · intro o o' seen db dn mb hdry hdry' hco
    have ht1 : (runHandle o seen db dn mb).final.parseTrace =
        (initState seen db dn).parseTrace ++ mailboxTrace mb := by
      unfold runHandle
      cases he : mb.isEmpty with
      | true =>
        have hmb : mb = [] := by
          cases mb with
          | nil => rfl
          | cons a l => exact Bool.noConfusion he
        subst hmb
        simp [mailboxTrace, initState]
      | false =>
        rw [if_neg Bool.false_ne_true]
        by_cases h2 : (runMsgs o (initState seen db dn) mb).2 = true
        · rw [if_pos h2]
          exact runMsgs_trace o mb (initState seen db dn) (Or.inl hdry)
        · rw [if_neg h2]
          exact runMsgs_trace o mb (initState seen db dn) (Or.inl hdry)
    have ht2 : (runHandle o' seen db dn mb).final.parseTrace =
        (initState seen db dn).parseTrace ++ mailboxTrace mb := by
      unfold runHandle
      cases he : mb.isEmpty with
      | true =>
        have hmb : mb = [] := by
          cases mb with
          | nil => rfl
          | cons a l => exact Bool.noConfusion he
        subst hmb
        simp [mailboxTrace, initState]
      | false =>
        rw [if_neg Bool.false_ne_true]
        by_cases h2 : (runMsgs o' (initState seen db dn) mb).2 = true
        · rw [if_pos h2]
          exact runMsgs_trace o' mb (initState seen db dn) (Or.inr hco)
        · rw [if_neg h2]
          exact runMsgs_trace o' mb (initState seen db dn) (Or.inr hco)
    rw [ht1, ht2]

/-- Concrete instance: a dry run over a parseable new transaction leaves
ledger, dedup set, flags and state file untouched, with the same parse
trace as the real run. -/
theorem dry_run_frame_witness :
    (runHandle optsDry [] [] [] [mkMsg 1 okBody]).final.donations = [] ∧
    (runHandle optsDry [] [] [] [mkMsg 1 okBody]).final.seenTx = [] ∧
    (runHandle optsDry [] [] [] [mkMsg 1 okBody]).final.flagged = [] ∧
    (runHandle optsDry [] [] [] [mkMsg 1 okBody]).stateSaved = none ∧
    (runHandle optsDry [] [] [] [mkMsg 1 okBody]).final.parseTrace =
      (runHandle optsReal [] [] [] [mkMsg 1 okBody]).final.parseTrace := by
  obtain ⟨_, hdon, hseen, hflag, hsave⟩ :=
    dry_run_frame.1 optsDry [] [] [] [mkMsg 1 okBody] rfl
  refine ⟨hdon, hseen, hflag, hsave, ?_⟩
  exact dry_run_frame.2 optsDry optsReal [] [] [] [mkMsg 1 okBody] rfl rfl
    (by intro x hx; rw [List.mem_singleton] at hx; rw [hx]; rfl)

/-- C8 counterexample: a run whose mailbox search selects no messages
returns right after the "No messages to process." warning (line 155) and
emits no summary, contradicting the claim that the summary is emitted
"including a run in which the mailbox search selects no messages". -/
theorem run_empty_selection_no_summary :
    (runHandle optsReal [] [] [] []).summary = none := rfl

/-- C8 (amended): every run that selects at least one message and whose
loop completes without an escaping exception ends by emitting the summary
with the final processed/created/duplicate/parse-failed counters and the
resolved state-file path; a run that selects no messages returns early
without a summary. -/
theorem run_summary_postcondition (o : Opts) (seen : List String)
    (db : List DonationRow) (dn : List String) (mb : List MailMsg)
    (h1 : mb ≠ []) (h2 : (runHandle o seen db dn mb).completed = true) :
    (runHandle o seen db dn mb).summary =
      some ⟨(runHandle o seen db dn mb).final.processed,
            (runHandle o seen db dn mb).final.created,
            (runHandle o seen db dn mb).final.alreadySeen,
            (runHandle o seen db dn mb).final.parseFailed, o.statePath⟩ := by
  unfold runHandle at h2 ⊢
  have he : mb.isEmpty = false := by
    cases mb with
    | nil => exact absurd rfl h1
    | cons a l => rfl
  rw [he] at h2 ⊢
  rw [if_neg Bool.false_ne_true] at h2 ⊢
  by_cases hr : (runMsgs o (initState seen db dn) mb).2 = true
  · rw [if_pos hr]
  · rw [if_neg hr] at h2
    exact absurd h2 Bool.false_ne_true

/-- Concrete instance: a one-message run completes and reports its
counters and state path in the summary. -/
theorem run_summary_postcondition_witness :
    (runHandle optsReal [] [] [] [mkMsg 1 okBody]).summary =
      some ⟨(runHandle optsReal [] [] [] [mkMsg 1 okBody]).final.processed,
            (runHandle optsReal [] [] [] [mkMsg 1 okBody]).final.created,
            (runHandle optsReal [] [] [] [mkMsg 1 okBody]).final.alreadySeen,
            (runHandle optsReal [] [] [] [mkMsg 1 okBody]).final.parseFailed,
            optsReal.statePath⟩ ∧
    (runHandle optsReal [] [] [] [mkMsg 1 okBody]).final.processed = 1 ∧
    (runHandle optsReal [] [] [] [mkMsg 1 okBody]).final.created = 1 :=
  ⟨run_summary_postcondition optsReal [] [] [] [mkMsg 1 okBody]
     (List.cons_ne_nil _ _) (by decide), by decide, by decide⟩

theorem pm_message_id (o : Opts) (st : LoopState) (m : MailMsg) (d : DonationRow)
    (hd : d ∈ (processMessage o st m).1.donations) :
    d ∈ st.donations ∨ d.message_id = none := by
  unfold processMessage at hd
  split at hd
  · exact Or.inl hd
  · split at hd
    · exact Or.inl hd
    · split at hd
      · exact Or.inl hd
      · dsimp only at hd
        cases hp : parse_paypal_email (extract_payload m.mime).1 with
        | none => rw [hp] at hd; exact Or.inl hd
        | some p =>
          rw [hp] at hd
          dsimp only at hd
          split at hd
          · exact Or.inl hd
          · split at hd
            · exact Or.inl hd
            · split at hd
              · exact Or.inl hd
              · rcases List.mem_append.mp hd with h1 | h1
                · exact Or.inl h1
                · rw [List.mem_singleton] at h1
                  subst h1
                  exact Or.inr rfl

theorem runMsgs_message_id (o : Opts) :
    ∀ (mb : List MailMsg) (st : LoopState) (d : DonationRow),
    d ∈ (runMsgs o st mb).1.donations → d ∈ st.donations ∨ d.message_id = none := by
  intro mb
  induction mb with
  | nil => intro st d hd; exact Or.inl hd
  | cons m ms ih =>
    intro st d hd
    simp only [runMsgs] at hd
    by_cases h : (processMessage o st m).2 = true
    · rw [if_pos h] at hd
      rcases ih (processMessage o st m).1 d hd with h1 | h1
      · exact pm_message_id o st m d h1
      · exact Or.inr h1
    · rw [if_neg h] at hd
      exact pm_message_id o st m d hd

/-- C10 (implicit): every donation the ingestion run adds to the ledger
is created without a `message_id` (the `create(**kwargs)` call supplies
only `amount` and possibly the donor), so the column stays null and its
unique constraint never acts as a dedup safeguard on this path. -/
theorem ingestion_message_id_null (o : Opts) (seen : List String)
    (db : List DonationRow) (dn : List String) (mb : List MailMsg) (d : DonationRow)
    (hd : d ∈ (runHandle o seen db dn mb).final.donations) :
    d ∈ db ∨ d.message_id = none := by
  unfold runHandle at hd
  by_cases he : mb.isEmpty = true
  · rw [if_pos he] at hd
    exact Or.inl hd
  · rw [if_neg he] at hd
    dsimp only at hd
    by_cases h : (runMsgs o (initState seen db dn) mb).2 = true
    · rw [if_pos h] at hd
      exact runMsgs_message_id o mb (initState seen db dn) d hd
    · rw [if_neg h] at hd
      exact runMsgs_message_id o mb (initState seen db dn) d hd

/-- Concrete instance: the donation created from a parsed email has a
null `message_id`. -/
theorem ingestion_message_id_null_witness :
    (⟨⟨false, 1250, -2⟩, none, none⟩ : DonationRow) ∈
      (runHandle optsReal [] [] [] [mkMsg 1 okBody]).final.donations ∧
    ((⟨⟨false, 1250, -2⟩, none, none⟩ : DonationRow) ∈ ([] : List DonationRow) ∨
     (⟨⟨false, 1250, -2⟩, none, none⟩ : DonationRow).message_id = none) :=
  ⟨by decide,
   ingestion_message_id_null optsReal [] [] [] [mkMsg 1 okBody] _ (by decide)⟩

theorem ctypeOf_mapDispo (g : Bool → Bool) (p : EmailPart) :
    ctypeOf (mapDispo g p) = ctypeOf p := by
  cases p <;> rfl

theorem payloadOf_mapDispo (g : Bool → Bool) (p : EmailPart) :
    payloadOf (mapDispo g p) = payloadOf p := by
  cases p <;> rfl

mutual
theorem walk_mapDispo (g : Bool → Bool) :
    (m : EmailPart) → walk (mapDispo g m) = (walk m).map (mapDispo g)
  | .leaf c d p => rfl
  | .multi c parts => by
    simp only [mapDispo, walk, List.map_cons]
    rw [walkList_mapDispo g parts]

theorem walkList_mapDispo (g : Bool → Bool) :
    (l : List EmailPart) → walkList (mapDispoList g l) = (walkList l).map (mapDispo g)
  | [] => rfl
  | p :: ps => by
    simp only [mapDispoList, walkList, List.map_append]
    rw [walk_mapDispo g p, walkList_mapDispo g ps]
end

theorem find?_map_comp {α β : Type} (f : α → β) (q : β → Bool) :
    ∀ l : List α, (l.map f).find? q = (l.find? (fun a => q (f a))).map f
  | [] => rfl
  | a :: l => by
    simp only [List.map_cons, List.find?]
    cases hq : q (f a) with
    | true => rfl
    | false => exact find?_map_comp f q l

theorem plainFallback_mapDispo (g : Bool → Bool) (m : EmailPart) (u : String) :
    plainFallback (mapDispo g m) u = plainFallback m u := by
  unfold plainFallback
  rw [walk_mapDispo, find?_map_comp]
  have hpred : (fun a => strToLower (ctypeOf (mapDispo g a)) == "text/plain") =
      (fun a => strToLower (ctypeOf a) == "text/plain") :=
    funext fun a => by rw [ctypeOf_mapDispo]
  rw [hpred]
  cases hf : (walk m).find? (fun part => strToLower (ctypeOf part) == "text/plain") with
  | none => rfl
  | some pp =>
    simp only [Option.map_some']
    rw [payloadOf_mapDispo]

theorem extract_payload_mapDispo (g : Bool → Bool) (m : EmailPart) :
    extract_payload (mapDispo g m) = extract_payload m := by
  cases m with
  | leaf c d p => rfl
  | multi c parts =>
    show extract_payload (.multi c (mapDispoList g parts)) = _
    unfold extract_payload
    dsimp only
    have hw : walk (.multi c (mapDispoList g parts)) =
        (walk (.multi c parts)).map (mapDispo g) := walk_mapDispo g (.multi c parts)
    rw [hw, find?_map_comp]
    have hpred : (fun a => strToLower (ctypeOf (mapDispo g a)) == "text/html") =
        (fun a => strToLower (ctypeOf a) == "text/html") :=
      funext fun a => by rw [ctypeOf_mapDispo]
    rw [hpred]
    cases hf : (walk (.multi c parts)).find?
        (fun part => strToLower (ctypeOf part) == "text/html") with
    | none =>
      simp only [Option.map_none']
      rw [show plainFallback (.multi c (mapDispoList g parts)) "text/plain" =
            plainFallback (mapDispo g (.multi c parts)) "text/plain" from rfl,
          plainFallback_mapDispo]
    | some hp =>
      simp only [Option.map_some']
      rw [payloadOf_mapDispo]
      cases hpay : payloadOf hp with
      | some s => rfl
      | none =>
        rw [show plainFallback (.multi c (mapDispoList g parts)) "text/html" =
              plainFallback (mapDispo g (.multi c parts)) "text/html" from rfl,
            plainFallback_mapDispo]

/-- C7 counterexample: `_extract_payload` picks the first `text/html`
part even when it is flagged as an attachment and a non-attachment
`text/plain` body exists — the returned body is not the payload of any
non-attachment part, so attachment parts are not skipped. -/
theorem extract_chooses_attachment_part :
    extract_payload attachmentHtmlMsg = ("ATTACHED", "text/html") ∧
    (∀ part ∈ walk attachmentHtmlMsg, isAttachmentPart part = false →
      payloadOf part ≠ some "ATTACHED") := by
  constructor
  · rfl
  · decide

/-- C7 (amended): part selection ignores the attachment disposition
entirely — rewriting every attachment flag leaves the result unchanged —
and among all parts in walk order the first `text/html` part with a
decodable payload is chosen, falling back to `text/plain` otherwise. -/
theorem extract_prefers_html_ignores_disposition :
    (∀ (g : Bool → Bool) (m : EmailPart),
      extract_payload (mapDispo g m) = extract_payload m) ∧
    (∀ (c : String) (parts : List EmailPart) (hp : EmailPart) (s : String),
      (walk (.multi c parts)).find?
        (fun q => strToLower (ctypeOf q) == "text/html") = some hp →
      payloadOf hp = some s →
      extract_payload (.multi c parts) = (s, "text/html")) := by
  constructor
  · exact extract_payload_mapDispo
  · intro c parts hp s hfind hpay
    unfold extract_payload
    dsimp only
    rw [hfind]
    dsimp only
    rw [hpay]

/-- Concrete instance: the first `text/html` part is chosen over an
earlier `text/plain` part, independently of disposition flags. -/
theorem extract_prefers_html_witness :
    extract_payload (.multi "multipart/alternative"
      [.leaf "text/plain" false (some "PLAIN"),
       .leaf "text/html" true (some "HTML")]) = ("HTML", "text/html") :=
  extract_prefers_html_ignores_disposition.2 "multipart/alternative"
    [.leaf "text/plain" false (some "PLAIN"),
     .leaf "text/html" true (some "HTML")]
    (.leaf "text/html" true (some "HTML")) "HTML" (by rfl) (by rfl)

/-! ### Evaluated examples mirroring the repository test suite -/

example : normalize_amount_to_decimal "1.234,56" = some ⟨false, 123456, -2⟩ := by decide

example : normalize_amount_to_decimal "1,234.56" = some ⟨false, 123456, -2⟩ := by decide

example : normalize_amount_to_decimal "12,50" = some ⟨false, 1250, -2⟩ := by decide

example : normalize_amount_to_decimal "" = none := by decide

example : normalize_amount_to_decimal "abc" = none := by decide

example : normalize_amount_to_decimal "€" = none := by decide

example :
    parse_paypal_email
      "Betreff: Sie haben eine Zahlung erhalten\nTransaktionscode: 9AB12345C6789012\nBetrag: 12,50 EUR\nVon: Max Mustermann" =
    some ⟨"9AB12345C6789012", ⟨false, 1250, -2⟩, "EUR", "Max Mustermann"⟩ := by decide

example :
    parse_paypal_email
      "Subject: You received a payment\nTransaction ID: 9AB12345C6789012\nAmount: €1,234.56 EUR\nFrom: John Smith" =
    some ⟨"9AB12345C6789012", ⟨false, 123456, -2⟩, "EUR", "John Smith"⟩ := by decide

example : parse_paypal_email "Totally unrelated email." = none := by decide

example :
    parse_paypal_email
      "<html><body><h1>Du hast eine Zahlung gesendet</h1><table><tr><td>Betrag</td><td>3,50 € EUR</td></tr><tr><td>Transaktionscode</td><td>9SENT99999999</td></tr></table></body></html>" =
    none := by decide